import Mathlib

/-!
Shallow embedding of the UIO register-access engine of
`src/src/ProtocolUIO_reg_access.cpp` (uHAL UIO AXI transport).

The engine keeps a `std::map<uint32_t, sUIODevice> devices` keyed by each
device's `uhalAddr` (the first logical address of its mapped window), a
buffer `std::vector<ValWord<uint32_t>> valwords` of pending read results,
and each device owns a mapped memory region `hw` of `size` 32-bit words.
Machine integers are modelled as `Nat` with explicit `% 2 ^ 32` where the
C++ arithmetic can wrap; the signed `int32_t` addend of `implementRMWsum`
is an `Int`.  A `SIGBUS` during a guarded access is modelled by a
per-location predicate `faulty`; the `SigBusGuard` converts it into the
`SigBusError` (`busFault`) exception carrying the message produced by the
`BUS_ERROR_PROTECTION` macro.
-/

/-- Device descriptor `uioaxi::sUIODevice`: base address `uhalAddr` of the
window in the logical (uHAL) address space and `size` in 32-bit words.  The
mapped memory itself lives in `UIOState.mem`, keyed by `uhalAddr`. -/
structure sUIODevice where
  uhalAddr : Nat
  size : Nat
deriving DecidableEq

/-- Errors the register-access functions can raise.
`deviceOutOfRange` is `uhal::exception::UIODevOOR`; `busFault` is
`uhal::exception::SigBusError`, carrying the message handed to
`SigBusGuard`; `undefinedBehaviour` marks the paths where the C++ executes
undefined behaviour: `(--(devices.upper_bound(aAddr)))->second` decrements
the map's `begin()` iterator when every key exceeds `aAddr` (or the map is
empty), so no defined result exists. -/
inductive UIOError where
  | deviceOutOfRange
  | busFault (msg : String)
  | undefinedBehaviour
deriving DecidableEq

/-- Block access mode `uhal::defs::BlockReadWriteMode`. -/
inductive BlockReadWriteMode where
  | INCREMENTAL
  | NON_INCREMENTAL
deriving DecidableEq

/-- Handle returned by `implementRead`: `uhal::ValWord<uint32_t>` shares its
validity flag with the copy pushed into `valwords`, so the flag is stored
in `UIOState.results` under the creation index `id`. -/
structure ValWord where
  id : Nat
  value : Nat
  mask : Nat
deriving DecidableEq

/-- State of one `uhal::UIO` client.
`devices` is the sorted `std::map` (keys are the `uhalAddr` fields);
`mem b o` is word `o` of the region mapped for the device whose base is
`b` (`dev.hw[o]`); `faulty b o` says a load/store of that word raises
`SIGBUS`; `valwords` holds the creation indices of the buffered pending
reads in creation order; `results i` is the validity flag of the `i`-th
`ValWord` ever created; `primeCount` counts the `primeDispatch()` calls. -/
structure UIOState where
  devices : List sUIODevice
  mem : Nat → Nat → Nat
  faulty : Nat → Nat → Bool
  valwords : List Nat
  results : List Bool
  primeCount : Nat

/-- Predecessor lookup `(--(devices.upper_bound(aAddr)))->second`: on the
sorted device map this is the entry with the greatest key not exceeding
`aAddr`.  When every key exceeds `aAddr` (or the map is empty) the C++
decrements the `begin()` iterator — undefined behaviour — modelled as
`none`. -/
def findDevice : List sUIODevice → Nat → Option sUIODevice
  | [], _ => none
  | d :: ds, aAddr =>
    if d.uhalAddr ≤ aAddr then
      match findDevice ds aAddr with
      | some e => some e
      | none => some d
    else none

/-- Hexadecimal digit of `%X` (uppercase). -/
def hexDigitChar (n : Nat) : Char :=
  if n < 10 then Char.ofNat (48 + n) else Char.ofNat (55 + n)

/-- The eight uppercase hexadecimal digits of a 32-bit value, as `%08X`
renders it (most significant digit first). -/
def hex8 (n : Nat) : List Char :=
  (List.range 8).map (fun i => hexDigitChar (n / 16 ^ (7 - i) % 16))

/-- Message built by `BUS_ERROR_PROTECTION` for the guard:
`snprintf(error_message, strlen(error_message), "Reg: 0x%08X", ADDRESS)`
with `error_message = "Reg: 0x00000000"`.  The bound is
`strlen("Reg: 0x00000000") = 15`, which counts the terminating NUL, so at
most 14 characters of the 15-character rendering are kept. -/
def busErrorMessage (aAddr : Nat) : String :=
  String.mk ((("Reg: 0x").data ++ hex8 aAddr).take 14)

/-- Guarded load `BUS_ERROR_PROTECTION(readval = dev.hw[offset], aAddr)`:
a `SIGBUS` at the accessed word becomes a `SigBusError` carrying the
macro's message; otherwise the mapped word is returned. -/
def guardedRead (s : UIOState) (base offset aAddr : Nat) : Except UIOError Nat :=
  if s.faulty base offset then Except.error (UIOError.busFault (busErrorMessage aAddr))
  else Except.ok (s.mem base offset)

/-- Guarded store `BUS_ERROR_PROTECTION(dev.hw[offset] = v, aAddr)`: on
success exactly the addressed word is updated (the cell is a `uint32_t`,
hence the `% 2 ^ 32`). -/
def guardedWrite (s : UIOState) (base offset aAddr v : Nat) : Except UIOError UIOState :=
  if s.faulty base offset then Except.error (UIOError.busFault (busErrorMessage aAddr))
  else Except.ok { s with
    mem := fun b o => if b = base ∧ o = offset then v % 2 ^ 32 else s.mem b o }

/-- Common prologue of all six access functions: the predecessor lookup
followed by `uint32_t offset = aAddr - dev.uhalAddr;` (exact, since the
lookup guarantees `dev.uhalAddr ≤ aAddr`) and the window check
`if (offset >= dev.size) throw UIODevOOR`. -/
def resolveDevice (devs : List sUIODevice) (aAddr : Nat) :
    Except UIOError (sUIODevice × Nat) :=
  match findDevice devs aAddr with
  | none => Except.error UIOError.undefinedBehaviour
  | some dev =>
    if dev.size ≤ aAddr - dev.uhalAddr then Except.error UIOError.deviceOutOfRange
    else Except.ok (dev, aAddr - dev.uhalAddr)

/-- The `primeDispatch()` step: it calls `checkBufferSpace` so that the
framework will invoke `implementDispatch` later; only its occurrence
matters here, so it is counted. -/
def primeDispatch (s : UIOState) : UIOState :=
  { s with primeCount := s.primeCount + 1 }

/-- `UIO::implementWrite`: resolve, window-check, guarded store of the raw
word.  Nothing is buffered. -/
def implementWrite (s : UIOState) (aAddr aValue : Nat) :
    Except UIOError Unit × UIOState :=
  match resolveDevice s.devices aAddr with
  | Except.error e => (Except.error e, s)
  | Except.ok (dev, offset) =>
    match guardedWrite s dev.uhalAddr offset aAddr aValue with
    | Except.error e => (Except.error e, s)
    | Except.ok s' => (Except.ok (), s')

/-- Loop of `UIO::implementWriteBlock`: one guarded store per element, the
offset advancing only in `INCREMENTAL` mode; a fault abandons the loop but
keeps the stores already performed. -/
def writeLoop (base aAddr : Nat) (aMode : BlockReadWriteMode) :
    List Nat → Nat → UIOState → Except UIOError Unit × UIOState
  | [], _, s => (Except.ok (), s)
  | v :: vs, offset, s =>
    match guardedWrite s base offset aAddr v with
    | Except.error e => (Except.error e, s)
    | Except.ok s' =>
      writeLoop base aAddr aMode vs
        (if aMode = BlockReadWriteMode.INCREMENTAL then offset + 1 else offset) s'

/-- `UIO::implementWriteBlock`: after the common prologue it additionally
checks `if ((offset + aValues.size()) >= dev.size) throw UIODevOOR` before
writing (`size_t` arithmetic, no 32-bit wrap). -/
def implementWriteBlock (s : UIOState) (aAddr : Nat) (aValues : List Nat)
    (aMode : BlockReadWriteMode) : Except UIOError Unit × UIOState :=
  match resolveDevice s.devices aAddr with
  | Except.error e => (Except.error e, s)
  | Except.ok (dev, offset) =>
    if dev.size ≤ offset + aValues.length then (Except.error UIOError.deviceOutOfRange, s)
    else writeLoop dev.uhalAddr aAddr aMode aValues offset s

/-- `UIO::implementRead`: resolve, window-check, guarded load; the fresh
`ValWord(readval, aMask)` is pushed into `valwords` (not yet valid) and
`primeDispatch()` is called. -/
def implementRead (s : UIOState) (aAddr aMask : Nat) :
    Except UIOError ValWord × UIOState :=
  match resolveDevice s.devices aAddr with
  | Except.error e => (Except.error e, s)
  | Except.ok (dev, offset) =>
    match guardedRead s dev.uhalAddr offset aAddr with
    | Except.error e => (Except.error e, s)
    | Except.ok readval =>
      (Except.ok ⟨s.results.length, readval, aMask⟩,
       primeDispatch { s with
         valwords := s.valwords ++ [s.results.length],
         results := s.results ++ [false] })

/-- Loop of `UIO::implementReadBlock` over `aSize` elements: one guarded
load per element; a fault abandons the block (the partially filled local
vector is discarded with the exception). -/
def readLoop (base aAddr : Nat) (aMode : BlockReadWriteMode) (s : UIOState) :
    Nat → Nat → Except UIOError (List Nat)
  | 0, _ => Except.ok []
  | n + 1, offset =>
    match guardedRead s base offset aAddr with
    | Except.error e => Except.error e
    | Except.ok readval =>
      match readLoop base aAddr aMode s n
        (if aMode = BlockReadWriteMode.INCREMENTAL then offset + 1 else offset) with
      | Except.error e => Except.error e
      | Except.ok rest => Except.ok (readval :: rest)

/-- `UIO::implementReadBlock`: only the common prologue checks bounds (the
starting offset); the returned `ValVector` is not buffered in `valwords`
and `primeDispatch` is not called, so the state is untouched. -/
def implementReadBlock (s : UIOState) (aAddr aSize : Nat)
    (aMode : BlockReadWriteMode) : Except UIOError (List Nat) :=
  match resolveDevice s.devices aAddr with
  | Except.error e => Except.error e
  | Except.ok (dev, offset) => readLoop dev.uhalAddr aAddr aMode s aSize offset

/-- `UIO::implementDispatch`: mark every buffered `ValWord` valid (in
creation order) and clear the buffer. -/
def implementDispatch (s : UIOState) : UIOState :=
  { s with
    results := s.valwords.foldl (fun r i => r.set i true) s.results,
    valwords := [] }

/-- The signed `int32_t` addend is added to the `uint32_t` word; the sum
wraps modulo `2 ^ 32` (`readval += aAddend`). -/
def add32 (readval : Nat) (aAddend : Int) : Nat :=
  (((readval : Int) + aAddend) % (2 ^ 32 : Int)).toNat

/-- `UIO::implementRMWbits`: guarded load, `readval &= aANDterm;
readval |= aORterm`, guarded store, guarded read-back; the read-back value
is returned (as a `ValWord` that is not buffered). -/
def implementRMWbits (s : UIOState) (aAddr aANDterm aORterm : Nat) :
    Except UIOError Nat × UIOState :=
  match resolveDevice s.devices aAddr with
  | Except.error e => (Except.error e, s)
  | Except.ok (dev, offset) =>
    match guardedRead s dev.uhalAddr offset aAddr with
    | Except.error e => (Except.error e, s)
    | Except.ok readval =>
      match guardedWrite s dev.uhalAddr offset aAddr ((readval &&& aANDterm) ||| aORterm) with
      | Except.error e => (Except.error e, s)
      | Except.ok s' =>
        match guardedRead s' dev.uhalAddr offset aAddr with
        | Except.error e => (Except.error e, s')
        | Except.ok readback => (Except.ok readback, s')

/-- `UIO::implementRMWsum`: guarded load, `readval += aAddend`, guarded
store, guarded read-back; the read-back value is returned (not
buffered). -/
def implementRMWsum (s : UIOState) (aAddr : Nat) (aAddend : Int) :
    Except UIOError Nat × UIOState :=
  match resolveDevice s.devices aAddr with
  | Except.error e => (Except.error e, s)
  | Except.ok (dev, offset) =>
    match guardedRead s dev.uhalAddr offset aAddr with
    | Except.error e => (Except.error e, s)
    | Except.ok readval =>
      match guardedWrite s dev.uhalAddr offset aAddr (add32 readval aAddend) with
      | Except.error e => (Except.error e, s)
      | Except.ok s' =>
        match guardedRead s' dev.uhalAddr offset aAddr with
        | Except.error e => (Except.error e, s')
        | Except.ok readback => (Except.ok readback, s')

/-- One public operation of the transport, for trace reasoning. -/
inductive UIOOp where
  | read (aAddr aMask : Nat)
  | write (aAddr aValue : Nat)
  | readBlock (aAddr aSize : Nat) (aMode : BlockReadWriteMode)
  | writeBlock (aAddr : Nat) (aValues : List Nat) (aMode : BlockReadWriteMode)
  | rmwBits (aAddr aANDterm aORterm : Nat)
  | rmwSum (aAddr : Nat) (aAddend : Int)
  | dispatch
deriving DecidableEq

/-- State transition of one operation (`implementReadBlock` never changes
the state, so its step is the identity). -/
def step (s : UIOState) : UIOOp → UIOState
  | UIOOp.read a m => (implementRead s a m).2
  | UIOOp.write a v => (implementWrite s a v).2
  | UIOOp.readBlock _ _ _ => s
  | UIOOp.writeBlock a vs md => (implementWriteBlock s a vs md).2
  | UIOOp.rmwBits a x y => (implementRMWbits s a x y).2
  | UIOOp.rmwSum a n => (implementRMWsum s a n).2
  | UIOOp.dispatch => implementDispatch s

/-- Run a sequence of operations. -/
def run : UIOState → List UIOOp → UIOState
  | s, [] => s
  | s, op :: ops => run (step s op) ops

/-- State of a freshly constructed client: the registry and the mapped
regions come from setup, the dispatch buffer is empty. -/
def initState (devs : List sUIODevice) (mem : Nat → Nat → Nat)
    (flt : Nat → Nat → Bool) : UIOState :=
  ⟨devs, mem, flt, [], [], 0⟩

/-- Buffer well-formedness: every buffered creation index refers to an
existing validity flag. -/
def WF (s : UIOState) : Prop :=
  ∀ i ∈ s.valwords, i < s.results.length

/-- Concrete one-device registry for evaluation: window `[0x1000, 0x1010)`. -/
def devC1 : sUIODevice := ⟨0x1000, 16⟩

/-- Concrete state for evaluating the address-precedes-first-device case:
fault-free, zeroed memory. -/
def sC1 : UIOState := ⟨[devC1], fun _ _ => 0, fun _ _ => false, [], [], 0⟩

/-- Concrete state for evaluating a faulting guarded access: one device
whose window `[0x89AB0000, 0x89AC0000)` contains `0x89ABCDEF`, every
access faulting. -/
def sC4 : UIOState := ⟨[⟨0x89AB0000, 0x10000⟩], fun _ _ => 0, fun _ _ => true, [], [], 0⟩

/-- Concrete fault-free state with one four-word device `[0x1000, 0x1004)`. -/
def sSmall : UIOState := ⟨[⟨0x1000, 4⟩], fun _ _ => 0, fun _ _ => false, [], [], 0⟩

/-- Concrete fault-free state with one sixteen-word device `[0x1000, 0x1010)`. -/
def sBig : UIOState := ⟨[devC1], fun _ _ => 0, fun _ _ => false, [], [], 0⟩

/-- Concrete fault-free two-device registry (windows `[0x1000, 0x1010)` and
`[0x2000, 0x2004)`) whose memory holds `0xCAFEBABE` at word 1 of the first
device. -/
def sTwo : UIOState :=
  ⟨[⟨0x1000, 16⟩, ⟨0x2000, 4⟩],
   fun b o => if b = 0x1000 ∧ o = 1 then 0xCAFEBABE else 0,
   fun _ _ => false, [], [], 0⟩

/-- Concrete fault-free state whose single device `[0x1000, 0x1004)` holds
`0xFFFFFFFF` in every word. -/
def sAllOnes : UIOState :=
  ⟨[⟨0x1000, 4⟩], fun _ _ => 0xFFFFFFFF, fun _ _ => false, [], [], 0⟩

/-- On a registry whose every base exceeds the queried address, the
predecessor lookup has no defined result. -/
theorem findDevice_none {devs : List sUIODevice} {a : Nat}
    (h : ∀ d ∈ devs, a < d.uhalAddr) : findDevice devs a = none := by
  induction devs with
  | nil => rfl
  | cons d ds ih =>
    unfold findDevice
    rw [if_neg (Nat.not_le.mpr (h d (List.mem_cons_self d ds)))]

/-- On a sorted, non-overlapping registry (each window ends before the next
begins), the predecessor lookup of an address inside a device's window
returns exactly that device. -/
theorem findDevice_eq {devs : List sUIODevice} {dev : sUIODevice} {a : Nat}
    (hchain : devs.Pairwise (fun d e => d.uhalAddr + d.size ≤ e.uhalAddr))
    (hmem : dev ∈ devs) (h1 : dev.uhalAddr ≤ a) (h2 : a < dev.uhalAddr + dev.size) :
    findDevice devs a = some dev := by
  induction devs with
  | nil => cases hmem
  | cons d ds ih =>
    rw [List.pairwise_cons] at hchain
    rcases List.mem_cons.mp hmem with rfl | hmem'
    · unfold findDevice
      rw [if_pos h1, findDevice_none (fun e he => Nat.lt_of_lt_of_le h2 (hchain.1 e he))]
    · have hrec := ih hchain.2 hmem'
      unfold findDevice
      have hd : d.uhalAddr ≤ a :=
        Nat.le_trans (Nat.le_trans (Nat.le_add_right _ _) (hchain.1 dev hmem')) h1
      rw [if_pos hd, hrec]

/-- Resolution succeeds with the looked-up device and its exact offset when
that offset is inside the window. -/
theorem resolveDevice_ok {devs : List sUIODevice} {dev : sUIODevice} {a : Nat}
    (hdev : findDevice devs a = some dev) (hoff : a - dev.uhalAddr < dev.size) :
    resolveDevice devs a = Except.ok (dev, a - dev.uhalAddr) := by
  unfold resolveDevice
  rw [hdev]
  exact if_neg (Nat.not_le.mpr hoff)

/-- Resolution raises `UIODevOOR` when the looked-up device's window is too
small for the offset. -/
theorem resolveDevice_oor {devs : List sUIODevice} {dev : sUIODevice} {a : Nat}
    (hdev : findDevice devs a = some dev) (hoff : dev.size ≤ a - dev.uhalAddr) :
    resolveDevice devs a = Except.error UIOError.deviceOutOfRange := by
  unfold resolveDevice
  rw [hdev]
  exact if_pos hoff

/-- Claim C1: the spec says every public operation fails with
`DeviceOutOfRange` for an address preceding the first device's base; the
code instead decrements the `begin()` iterator of the device map, which is
undefined behaviour, before any range check can run.  Evaluated at address
`0xFFF` against a registry whose first (and only) device starts at
`0x1000`: all six operations hit the undefined predecessor lookup. -/
theorem accessBeforeFirstDevice_undefined :
    (implementRead sC1 0xFFF 0xFFFFFFFF).1 = Except.error UIOError.undefinedBehaviour ∧
    (implementWrite sC1 0xFFF 0).1 = Except.error UIOError.undefinedBehaviour ∧
    implementReadBlock sC1 0xFFF 4 BlockReadWriteMode.INCREMENTAL =
      Except.error UIOError.undefinedBehaviour ∧
    (implementWriteBlock sC1 0xFFF [1, 2] BlockReadWriteMode.INCREMENTAL).1 =
      Except.error UIOError.undefinedBehaviour ∧
    (implementRMWbits sC1 0xFFF 0 0xFF).1 = Except.error UIOError.undefinedBehaviour ∧
    (implementRMWsum sC1 0xFFF 1).1 = Except.error UIOError.undefinedBehaviour :=
  ⟨rfl, rfl, rfl, rfl, rfl, rfl⟩

/-- Claim C4: a faulting guarded access does raise the bus-fault error, but
its message is NOT the full eight-hex-digit rendering of the register
address: `snprintf` is bounded by `strlen("Reg: 0x00000000") = 15`, so the
15-character rendering `"Reg: 0x89ABCDEF"` is truncated to the 14
characters `"Reg: 0x89ABCDE"` — the final hex digit is lost.  Evaluated at
address `0x89ABCDEF` on a faulting device: the raised error carries the
truncated message, and the eight-digit rendering of the address is not
contained in it. -/
theorem busFaultMessage_truncatesAddress :
    (implementRead sC4 0x89ABCDEF 0xFFFFFFFF).1 =
      Except.error (UIOError.busFault ("Reg: 0x89ABCDE")) ∧
    ¬ List.IsInfix (hex8 0x89ABCDEF) ("Reg: 0x89ABCDE").data := by
  constructor
  · rfl
  · decide

/-- Claim C2: `implementWriteBlock` rejects the exactly fitting block: when
`offset + aValues.size() == dev.size` the check `>= dev.size` fires and
`UIODevOOR` is raised before any store; an accepted block therefore
satisfies `offset + aValues.size() < dev.size`. -/
theorem writeBlock_rejects_exactFit (s : UIOState) (aAddr : Nat) (aValues : List Nat)
    (aMode : BlockReadWriteMode) (dev : sUIODevice)
    (hdev : findDevice s.devices aAddr = some dev) :
    ((aAddr - dev.uhalAddr) + aValues.length = dev.size →
      implementWriteBlock s aAddr aValues aMode = (Except.error UIOError.deviceOutOfRange, s)) ∧
    (∀ r, (implementWriteBlock s aAddr aValues aMode).1 = Except.ok r →
      (aAddr - dev.uhalAddr) + aValues.length < dev.size) := by
  constructor
  · intro hfit
    by_cases hb : dev.size ≤ aAddr - dev.uhalAddr
    · unfold implementWriteBlock
      rw [resolveDevice_oor hdev hb]
    · unfold implementWriteBlock
      rw [resolveDevice_ok hdev (Nat.not_le.mp hb)]
      exact if_pos (Nat.le_of_eq hfit.symm)
  · intro r hr
    by_cases hb : dev.size ≤ aAddr - dev.uhalAddr
    · have heq : implementWriteBlock s aAddr aValues aMode =
          (Except.error UIOError.deviceOutOfRange, s) := by
        unfold implementWriteBlock
        rw [resolveDevice_oor hdev hb]
      rw [heq] at hr
      exact absurd hr (by simp)
    · by_cases hc : dev.size ≤ (aAddr - dev.uhalAddr) + aValues.length
      · have heq : implementWriteBlock s aAddr aValues aMode =
            (Except.error UIOError.deviceOutOfRange, s) := by
          unfold implementWriteBlock
          rw [resolveDevice_ok hdev (Nat.not_le.mp hb)]
          exact if_pos hc
        rw [heq] at hr
        exact absurd hr (by simp)
      · exact Nat.not_le.mp hc

/-- Witness for claim C2: on the four-word device, offset `1` plus three
values lands exactly on the window end and is rejected with the state
untouched. -/
theorem writeBlock_rejects_exactFit_witness :
    findDevice sSmall.devices 0x1001 = some ⟨0x1000, 4⟩ ∧
    (0x1001 - 0x1000) + [7, 8, 9].length = 4 ∧
    implementWriteBlock sSmall 0x1001 [7, 8, 9] BlockReadWriteMode.INCREMENTAL =
      (Except.error UIOError.deviceOutOfRange, sSmall) :=
  ⟨by decide, by decide,
   (writeBlock_rejects_exactFit sSmall 0x1001 [7, 8, 9] BlockReadWriteMode.INCREMENTAL
     ⟨0x1000, 4⟩ (by decide)).1 (by decide)⟩

/-- Any error produced by the read loop is a bus fault: the loop body
performs no range check at all. -/
theorem readLoop_error_busFault (base aAddr : Nat) (aMode : BlockReadWriteMode)
    (s : UIOState) :
    ∀ (n offset : Nat) (e : UIOError),
      readLoop base aAddr aMode s n offset = Except.error e →
      ∃ m, e = UIOError.busFault m := by
  intro n
  induction n with
  | zero =>
    intro offset e h
    exact absurd h (by simp [readLoop])
  | succ n ih =>
    intro offset e h
    unfold readLoop guardedRead at h
    by_cases hf : s.faulty base offset
    · rw [if_pos hf] at h
      exact ⟨busErrorMessage aAddr, (Except.error.inj h).symm⟩
    · rw [if_neg hf] at h
      rcases hrec : readLoop base aAddr aMode s n
          (if aMode = BlockReadWriteMode.INCREMENTAL then offset + 1 else offset) with e' | rest
      · rw [hrec] at h
        exact (Except.error.inj h) ▸ ih _ e' hrec
      · rw [hrec] at h
        exact absurd h (by simp)

/-- Claim C3: once the starting offset passes the window check,
`implementReadBlock` never raises `UIODevOOR`, whatever the requested
count — the end of the block is not checked against the window. -/
theorem readBlock_noEndCheck (s : UIOState) (aAddr aSize : Nat) (dev : sUIODevice)
    (hdev : findDevice s.devices aAddr = some dev)
    (hoff : aAddr - dev.uhalAddr < dev.size) :
    implementReadBlock s aAddr aSize BlockReadWriteMode.INCREMENTAL ≠
      Except.error UIOError.deviceOutOfRange := by
  intro h
  unfold implementReadBlock at h
  rw [resolveDevice_ok hdev hoff] at h
  obtain ⟨m, hm⟩ := readLoop_error_busFault dev.uhalAddr aAddr BlockReadWriteMode.INCREMENTAL
    s aSize (aAddr - dev.uhalAddr) UIOError.deviceOutOfRange h
  cases hm

/-- Witness for claim C3: reading ten words starting at offset 2 of the
four-word device overruns the window, yet no `UIODevOOR` is raised. -/
theorem readBlock_noEndCheck_witness :
    findDevice sSmall.devices 0x1002 = some ⟨0x1000, 4⟩ ∧
    0x1002 - 0x1000 < 4 ∧
    implementReadBlock sSmall 0x1002 10 BlockReadWriteMode.INCREMENTAL ≠
      Except.error UIOError.deviceOutOfRange :=
  ⟨by decide, by decide,
   readBlock_noEndCheck sSmall 0x1002 10 ⟨0x1000, 4⟩ (by decide) (by decide)⟩

/-- Claim C5: an address whose resolved offset equals the device size
exactly is rejected by both the single-word read and the single-word
write — the window boundary is exclusive, and the state is untouched. -/
theorem boundaryOffset_read_write_fail (s : UIOState) (aAddr aMask aValue : Nat)
    (dev : sUIODevice) (hdev : findDevice s.devices aAddr = some dev)
    (hoff : aAddr - dev.uhalAddr = dev.size) :
    implementRead s aAddr aMask = (Except.error UIOError.deviceOutOfRange, s) ∧
    implementWrite s aAddr aValue = (Except.error UIOError.deviceOutOfRange, s) := by
  have hge : dev.size ≤ aAddr - dev.uhalAddr := Nat.le_of_eq hoff.symm
  constructor
  · unfold implementRead
    rw [resolveDevice_oor hdev hge]
  · unfold implementWrite
    rw [resolveDevice_oor hdev hge]

/-- Witness for claim C5: address `0x1010` resolves to the sixteen-word
device at `0x1000` with offset 16 = size; read and write both fail. -/
theorem boundaryOffset_read_write_fail_witness :
    findDevice sBig.devices 0x1010 = some devC1 ∧
    0x1010 - 0x1000 = 16 ∧
    implementRead sBig 0x1010 0xFFFFFFFF = (Except.error UIOError.deviceOutOfRange, sBig) ∧
    implementWrite sBig 0x1010 42 = (Except.error UIOError.deviceOutOfRange, sBig) :=
  ⟨by decide, by decide,
   (boundaryOffset_read_write_fail sBig 0x1010 0xFFFFFFFF 42 devC1 (by decide) (by decide)).1,
   (boundaryOffset_read_write_fail sBig 0x1010 0xFFFFFFFF 42 devC1 (by decide) (by decide)).2⟩

/-- Claim C6: on a sorted registry of non-overlapping windows, an address
inside a device's window resolves to that device with
`offset = aAddr - uhalAddr`; the single-word read then returns exactly the
mapped word at that offset (wrapped with the mask into a fresh `ValWord`),
and the single-word write updates exactly that word and no other. -/
theorem resolveWindow_read_write (s : UIOState) (dev : sUIODevice) (aAddr aMask aValue : Nat)
    (hchain : s.devices.Pairwise (fun d e => d.uhalAddr + d.size ≤ e.uhalAddr))
    (hmem : dev ∈ s.devices)
    (h1 : dev.uhalAddr ≤ aAddr) (h2 : aAddr < dev.uhalAddr + dev.size)
    (hnf : s.faulty dev.uhalAddr (aAddr - dev.uhalAddr) = false) :
    resolveDevice s.devices aAddr = Except.ok (dev, aAddr - dev.uhalAddr) ∧
    (implementRead s aAddr aMask).1 =
      Except.ok ⟨s.results.length, s.mem dev.uhalAddr (aAddr - dev.uhalAddr), aMask⟩ ∧
    (implementWrite s aAddr aValue).2.mem dev.uhalAddr (aAddr - dev.uhalAddr) =
      aValue % 2 ^ 32 ∧
    (∀ b o, ¬(b = dev.uhalAddr ∧ o = aAddr - dev.uhalAddr) →
      (implementWrite s aAddr aValue).2.mem b o = s.mem b o) := by
  have hdev := findDevice_eq hchain hmem h1 h2
  have hoff : aAddr - dev.uhalAddr < dev.size := by omega
  have hres := resolveDevice_ok hdev hoff
  refine ⟨hres, ?_, ?_, ?_⟩
  · simp [implementRead, hres, guardedRead, hnf]
  · simp [implementWrite, hres, guardedWrite, hnf]
  · intro b o hbo
    simp only [implementWrite, hres, guardedWrite, hnf, Bool.false_eq_true, if_false]
    exact if_neg hbo

/-- Witness for claim C6: on the two-device registry, `0x1001` resolves to
the device at `0x1000` with offset 1; the read sees `0xCAFEBABE` and the
write of `0x12345678` to that address lands in word 1 and leaves word 0
alone. -/
theorem resolveWindow_read_write_witness :
    resolveDevice sTwo.devices 0x1001 = Except.ok (⟨0x1000, 16⟩, 1) ∧
    (implementRead sTwo 0x1001 0xFFFFFFFF).1 = Except.ok ⟨0, 0xCAFEBABE, 0xFFFFFFFF⟩ ∧
    (implementWrite sTwo 0x1001 0x12345678).2.mem 0x1000 1 = 0x12345678 % 2 ^ 32 ∧
    (implementWrite sTwo 0x1001 0x12345678).2.mem 0x1000 0 = sTwo.mem 0x1000 0 := by
  have h := resolveWindow_read_write sTwo ⟨0x1000, 16⟩ 0x1001 0xFFFFFFFF 0x12345678
    (by decide) (by decide) (by decide) (by decide) rfl
  exact ⟨h.1, h.2.1, h.2.2.1, h.2.2.2 0x1000 0 (by decide)⟩

/-- Claim C8: `implementRMWbits` with `aANDterm = 0x0` and `aORterm = 0xFF`
returns `0xFF` whatever the prior word: the written word is
`(readval & 0x0) | 0xFF = 0xFF` and the returned value is the guarded
read-back of that word. -/
theorem rmwBits_and0_orFF (s : UIOState) (aAddr : Nat) (dev : sUIODevice)
    (hdev : findDevice s.devices aAddr = some dev)
    (hoff : aAddr - dev.uhalAddr < dev.size)
    (hnf : s.faulty dev.uhalAddr (aAddr - dev.uhalAddr) = false) :
    (implementRMWbits s aAddr 0x0 0xFF).1 = Except.ok 0xFF := by
  have hres := resolveDevice_ok hdev hoff
  simp [implementRMWbits, hres, guardedRead, guardedWrite, hnf]

/-- Witness for claim C8: on the all-ones device, the read-modify-write
with `and = 0x0`, `or = 0xFF` at `0x1002` yields `0xFF`. -/
theorem rmwBits_and0_orFF_witness :
    findDevice sAllOnes.devices 0x1002 = some ⟨0x1000, 4⟩ ∧
    (implementRMWbits sAllOnes 0x1002 0x0 0xFF).1 = Except.ok 0xFF :=
  ⟨by decide, rmwBits_and0_orFF sAllOnes 0x1002 ⟨0x1000, 4⟩ (by decide) (by decide) rfl⟩

/-- Claim C9: `implementRMWsum` adds the signed addend to the unsigned
word modulo `2 ^ 32`; on a word holding `0xFFFFFFFF` an addend of 1 wraps
to `0x00000000`, and the wrap is returned as a value, not an error. -/
theorem rmwSum_wraparound (s : UIOState) (aAddr : Nat) (dev : sUIODevice)
    (hdev : findDevice s.devices aAddr = some dev)
    (hoff : aAddr - dev.uhalAddr < dev.size)
    (hnf : s.faulty dev.uhalAddr (aAddr - dev.uhalAddr) = false)
    (hword : s.mem dev.uhalAddr (aAddr - dev.uhalAddr) = 0xFFFFFFFF) :
    (implementRMWsum s aAddr 1).1 = Except.ok 0x00000000 := by
  have hres := resolveDevice_ok hdev hoff
  simp [implementRMWsum, hres, guardedRead, guardedWrite, hnf, hword, add32]

/-- Witness for claim C9: on the all-ones device, adding 1 at `0x1003`
returns `0x00000000`. -/
theorem rmwSum_wraparound_witness :
    findDevice sAllOnes.devices 0x1003 = some ⟨0x1000, 4⟩ ∧
    sAllOnes.mem 0x1000 (0x1003 - 0x1000) = 0xFFFFFFFF ∧
    (implementRMWsum sAllOnes 0x1003 1).1 = Except.ok 0x00000000 :=
  ⟨by decide, rfl,
   rmwSum_wraparound sAllOnes 0x1003 ⟨0x1000, 4⟩ (by decide) (by decide) rfl rfl⟩

/-- A successful guarded store changes only the mapped memory. -/
theorem guardedWrite_ok_frame {s : UIOState} {b o a v : Nat} {s' : UIOState}
    (h : guardedWrite s b o a v = Except.ok s') :
    s'.devices = s.devices ∧ s'.faulty = s.faulty ∧ s'.valwords = s.valwords ∧
    s'.results = s.results ∧ s'.primeCount = s.primeCount := by
  unfold guardedWrite at h
  split at h
  · cases h
  · cases h
    exact ⟨rfl, rfl, rfl, rfl, rfl⟩

/-- The write-block loop never touches the dispatch buffer, the validity
flags or the priming counter, on the normal path and on a fault alike. -/
theorem writeLoop_frame (base aAddr : Nat) (aMode : BlockReadWriteMode) :
    ∀ (vs : List Nat) (offset : Nat) (s : UIOState),
      (writeLoop base aAddr aMode vs offset s).2.valwords = s.valwords ∧
      (writeLoop base aAddr aMode vs offset s).2.results = s.results ∧
      (writeLoop base aAddr aMode vs offset s).2.primeCount = s.primeCount := by
  intro vs
  induction vs with
  | nil => intro offset s; exact ⟨rfl, rfl, rfl⟩
  | cons v vs ih =>
    intro offset s
    unfold writeLoop
    rcases hw : guardedWrite s base offset aAddr v with e | s'
    · exact ⟨rfl, rfl, rfl⟩
    · have hf := guardedWrite_ok_frame hw
      have hr := ih (if aMode = BlockReadWriteMode.INCREMENTAL then offset + 1 else offset) s'
      exact ⟨hr.1.trans hf.2.2.1, hr.2.1.trans hf.2.2.2.1, hr.2.2.trans hf.2.2.2.2⟩

/-- `implementWrite` never touches the dispatch buffer, the validity
flags or the priming counter. -/
theorem implementWrite_frame (s : UIOState) (aAddr aValue : Nat) :
    (implementWrite s aAddr aValue).2.valwords = s.valwords ∧
    (implementWrite s aAddr aValue).2.results = s.results ∧
    (implementWrite s aAddr aValue).2.primeCount = s.primeCount := by
  unfold implementWrite
  split
  · exact ⟨rfl, rfl, rfl⟩
  · split
    · exact ⟨rfl, rfl, rfl⟩
    · rename_i s' hw
      have hf := guardedWrite_ok_frame hw
      exact ⟨hf.2.2.1, hf.2.2.2.1, hf.2.2.2.2⟩

/-- `implementWriteBlock` never touches the dispatch buffer, the validity
flags or the priming counter. -/
theorem implementWriteBlock_frame (s : UIOState) (aAddr : Nat) (aValues : List Nat)
    (aMode : BlockReadWriteMode) :
    (implementWriteBlock s aAddr aValues aMode).2.valwords = s.valwords ∧
    (implementWriteBlock s aAddr aValues aMode).2.results = s.results ∧
    (implementWriteBlock s aAddr aValues aMode).2.primeCount = s.primeCount := by
  unfold implementWriteBlock
  split
  · exact ⟨rfl, rfl, rfl⟩
  · rename_i dev offset heq
    split
    · exact ⟨rfl, rfl, rfl⟩
    · exact writeLoop_frame dev.uhalAddr aAddr aMode aValues offset s

/-- `implementRMWbits` never touches the dispatch buffer, the validity
flags or the priming counter. -/
theorem implementRMWbits_frame (s : UIOState) (aAddr aANDterm aORterm : Nat) :
    (implementRMWbits s aAddr aANDterm aORterm).2.valwords = s.valwords ∧
    (implementRMWbits s aAddr aANDterm aORterm).2.results = s.results ∧
    (implementRMWbits s aAddr aANDterm aORterm).2.primeCount = s.primeCount := by
  unfold implementRMWbits
  split
  · exact ⟨rfl, rfl, rfl⟩
  · split
    · exact ⟨rfl, rfl, rfl⟩
    · split
      · exact ⟨rfl, rfl, rfl⟩
      · rename_i s' hw
        have hf := guardedWrite_ok_frame hw
        split
        · exact ⟨hf.2.2.1, hf.2.2.2.1, hf.2.2.2.2⟩
        · exact ⟨hf.2.2.1, hf.2.2.2.1, hf.2.2.2.2⟩

/-- `implementRMWsum` never touches the dispatch buffer, the validity
flags or the priming counter. -/
theorem implementRMWsum_frame (s : UIOState) (aAddr : Nat) (aAddend : Int) :
    (implementRMWsum s aAddr aAddend).2.valwords = s.valwords ∧
    (implementRMWsum s aAddr aAddend).2.results = s.results ∧
    (implementRMWsum s aAddr aAddend).2.primeCount = s.primeCount := by
  unfold implementRMWsum
  split
  · exact ⟨rfl, rfl, rfl⟩
  · split
    · exact ⟨rfl, rfl, rfl⟩
    · split
      · exact ⟨rfl, rfl, rfl⟩
      · rename_i s' hw
        have hf := guardedWrite_ok_frame hw
        split
        · exact ⟨hf.2.2.1, hf.2.2.2.1, hf.2.2.2.2⟩
        · exact ⟨hf.2.2.1, hf.2.2.2.1, hf.2.2.2.2⟩

/-- Claim C10: `write`, `writeBlock`, `readModifyWriteBits` and
`readModifyWriteSum` leave the dispatch buffer, the validity flags and the
priming counter untouched on every path (success, out-of-range, fault):
only the single-word read buffers a pending result and primes dispatch. -/
theorem write_rmw_preserve_dispatchBuffer :
    ∀ (s : UIOState) (aAddr aValue aANDterm aORterm : Nat) (aValues : List Nat)
      (aMode : BlockReadWriteMode) (aAddend : Int),
      ((implementWrite s aAddr aValue).2.valwords = s.valwords ∧
       (implementWrite s aAddr aValue).2.results = s.results ∧
       (implementWrite s aAddr aValue).2.primeCount = s.primeCount) ∧
      ((implementWriteBlock s aAddr aValues aMode).2.valwords = s.valwords ∧
       (implementWriteBlock s aAddr aValues aMode).2.results = s.results ∧
       (implementWriteBlock s aAddr aValues aMode).2.primeCount = s.primeCount) ∧
      ((implementRMWbits s aAddr aANDterm aORterm).2.valwords = s.valwords ∧
       (implementRMWbits s aAddr aANDterm aORterm).2.results = s.results ∧
       (implementRMWbits s aAddr aANDterm aORterm).2.primeCount = s.primeCount) ∧
      ((implementRMWsum s aAddr aAddend).2.valwords = s.valwords ∧
       (implementRMWsum s aAddr aAddend).2.results = s.results ∧
       (implementRMWsum s aAddr aAddend).2.primeCount = s.primeCount) :=
  fun s aAddr aValue aANDterm aORterm aValues aMode aAddend =>
    ⟨implementWrite_frame s aAddr aValue,
     implementWriteBlock_frame s aAddr aValues aMode,
     implementRMWbits_frame s aAddr aANDterm aORterm,
     implementRMWsum_frame s aAddr aAddend⟩

/-- `implementRead` either leaves the buffer and flags unchanged (error
paths) or appends one not-yet-valid pending result whose creation index is
the number of results created so far. -/
theorem implementRead_dispatchFields (s : UIOState) (aAddr aMask : Nat) :
    ((implementRead s aAddr aMask).2.valwords = s.valwords ∧
     (implementRead s aAddr aMask).2.results = s.results) ∨
    ((implementRead s aAddr aMask).2.valwords = s.valwords ++ [s.results.length] ∧
     (implementRead s aAddr aMask).2.results = s.results ++ [false]) := by
  unfold implementRead
  split
  · exact Or.inl ⟨rfl, rfl⟩
  · split
    · exact Or.inl ⟨rfl, rfl⟩
    · exact Or.inr ⟨rfl, rfl⟩

/-- A non-dispatch operation can only append `false` flags, never flip one
to `true`. -/
theorem step_results_nodispatch (s : UIOState) (op : UIOOp) (h : op ≠ UIOOp.dispatch) :
    (step s op).results = s.results ∨ (step s op).results = s.results ++ [false] := by
  cases op with
  | read a m => exact (implementRead_dispatchFields s a m).imp And.right And.right
  | write a v => exact Or.inl (implementWrite_frame s a v).2.1
  | readBlock a n md => exact Or.inl rfl
  | writeBlock a vs md => exact Or.inl (implementWriteBlock_frame s a vs md).2.1
  | rmwBits a x y => exact Or.inl (implementRMWbits_frame s a x y).2.1
  | rmwSum a n => exact Or.inl (implementRMWsum_frame s a n).2.1
  | dispatch => exact absurd rfl h

/-- Over a dispatch-free trace the validity flags grow only by `false`
entries. -/
theorem run_results_replicate (ops : List UIOOp) :
    ∀ (s : UIOState), UIOOp.dispatch ∉ ops →
      ∃ k, (run s ops).results = s.results ++ List.replicate k false := by
  induction ops with
  | nil => intro s _; exact ⟨0, by simp [run]⟩
  | cons op ops ih =>
    intro s hnd
    have hop : op ≠ UIOOp.dispatch := fun he => hnd (he ▸ List.mem_cons_self op ops)
    have hnd' : UIOOp.dispatch ∉ ops := fun hm => hnd (List.mem_cons_of_mem op hm)
    obtain ⟨k, hk⟩ := ih (step s op) hnd'
    rcases step_results_nodispatch s op hop with hs | hs
    · refine ⟨k, ?_⟩
      simp only [run]
      rw [hk, hs]
    · refine ⟨k + 1, ?_⟩
      simp only [run]
      rw [hk, hs]
      simp [List.replicate_succ, List.append_assoc]

/-- Folding set-to-true keeps the list length. -/
theorem foldl_set_length (buf : List Nat) :
    ∀ (res : List Bool), (buf.foldl (fun r i => r.set i true) res).length = res.length := by
  induction buf with
  | nil => intro res; rfl
  | cons j buf ih => intro res; rw [List.foldl_cons, ih, List.length_set]

/-- Folding set-to-true preserves an already-true entry. -/
theorem foldl_set_keeps_true (buf : List Nat) :
    ∀ (res : List Bool) (i : Nat), res[i]? = some true →
      (buf.foldl (fun r i => r.set i true) res)[i]? = some true := by
  induction buf with
  | nil => intro res i h; exact h
  | cons j buf ih =>
    intro res i h
    rw [List.foldl_cons]
    apply ih
    by_cases hij : i = j
    · subst hij
      have hi : i < res.length := (List.getElem?_eq_some.mp h).1
      simp [List.getElem?_set_self', hi]
    · rw [List.getElem?_set_ne (fun he => hij he.symm)]
      exact h

/-- Folding set-to-true marks every in-bounds index of the fold list. -/
theorem foldl_set_marks (buf : List Nat) :
    ∀ (res : List Bool) (i : Nat), i ∈ buf → i < res.length →
      (buf.foldl (fun r i => r.set i true) res)[i]? = some true := by
  induction buf with
  | nil => intro res i h _; cases h
  | cons j buf ih =>
    intro res i hmem hlt
    rw [List.foldl_cons]
    rcases List.mem_cons.mp hmem with rfl | hmem'
    · apply foldl_set_keeps_true
      simp [List.getElem?_set_self', hlt]
    · exact ih (res.set j true) i hmem' (by rw [List.length_set]; exact hlt)

/-- Every operation preserves buffer well-formedness. -/
theorem wf_step (s : UIOState) (op : UIOOp) (h : WF s) : WF (step s op) := by
  cases op with
  | read a m =>
    rcases implementRead_dispatchFields s a m with ⟨hv, hr⟩ | ⟨hv, hr⟩
    · intro i hi
      simp only [step] at hi ⊢
      rw [hr]
      exact h i (hv ▸ hi)
    · intro i hi
      simp only [step] at hi ⊢
      rw [hr, List.length_append]
      rw [hv] at hi
      rcases List.mem_append.mp hi with hi' | hi'
      · have := h i hi'
        simp only [List.length_cons, List.length_nil]
        omega
      · have : i = s.results.length := by simpa using hi'
        simp only [List.length_cons, List.length_nil]
        omega
  | write a v =>
    intro i hi
    simp only [step] at hi ⊢
    rw [(implementWrite_frame s a v).2.1]
    exact h i ((implementWrite_frame s a v).1 ▸ hi)
  | readBlock a n md => exact h
  | writeBlock a vs md =>
    intro i hi
    simp only [step] at hi ⊢
    rw [(implementWriteBlock_frame s a vs md).2.1]
    exact h i ((implementWriteBlock_frame s a vs md).1 ▸ hi)
  | rmwBits a x y =>
    intro i hi
    simp only [step] at hi ⊢
    rw [(implementRMWbits_frame s a x y).2.1]
    exact h i ((implementRMWbits_frame s a x y).1 ▸ hi)
  | rmwSum a n =>
    intro i hi
    simp only [step] at hi ⊢
    rw [(implementRMWsum_frame s a n).2.1]
    exact h i ((implementRMWsum_frame s a n).1 ▸ hi)
  | dispatch =>
    intro i hi
    simp [step, implementDispatch] at hi

/-- Well-formedness holds along every trace. -/
theorem wf_run (ops : List UIOOp) : ∀ (s : UIOState), WF s → WF (run s ops) := by
  induction ops with
  | nil => intro s h; exact h
  | cons op ops ih => intro s h; exact ih (step s op) (wf_step s op h)

/-- `implementDispatch` empties the buffer and validates every buffered
pending result (given well-formedness). -/
theorem dispatch_marks (s : UIOState) (h : WF s) :
    (implementDispatch s).valwords = [] ∧
    ∀ i ∈ s.valwords, (implementDispatch s).results[i]? = some true := by
  refine ⟨rfl, ?_⟩
  intro i hi
  exact foldl_set_marks s.valwords s.results i hi (h i hi)

/-- Claim C7: a pending result created by a read is never valid while no
dispatch has run since its creation (over any dispatch-free trace its flag
stays `false`); and one `dispatch()` after any trace from a fresh client
empties the buffer and marks every result that was pending as valid. -/
theorem read_valid_only_after_dispatch :
    (∀ (s : UIOState) (ops : List UIOOp), UIOOp.dispatch ∉ ops →
      ∀ j, s.results.length ≤ j → (((run s ops).results[j]?).getD false) = false) ∧
    (∀ (devs : List sUIODevice) (m : Nat → Nat → Nat) (flt : Nat → Nat → Bool)
        (ops : List UIOOp),
      (step (run (initState devs m flt) ops) UIOOp.dispatch).valwords = [] ∧
      (∀ i ∈ (run (initState devs m flt) ops).valwords,
        (step (run (initState devs m flt) ops) UIOOp.dispatch).results[i]? = some true)) := by
  constructor
  · intro s ops hnd j hj
    obtain ⟨k, hk⟩ := run_results_replicate ops s hnd
    rw [hk, List.getElem?_append_right hj]
    rcases Nat.lt_or_ge (j - s.results.length) k with hlt | hge
    · simp [List.getElem?_replicate, hlt]
    · simp [List.getElem?_replicate, Nat.not_lt.mpr hge]
  · intro devs m flt ops
    have hwf : WF (run (initState devs m flt) ops) :=
      wf_run ops (initState devs m flt) (fun i hi => absurd hi (List.not_mem_nil i))
    exact dispatch_marks _ hwf

/-- Witness for claim C7: a single read of `0x1001` on the two-device
client leaves its pending result invalid while no dispatch has run, and
the dispatch step empties the buffer. -/
theorem read_valid_only_after_dispatch_witness :
    UIOOp.dispatch ∉ [UIOOp.read 0x1001 0xFFFFFFFF] ∧
    (((run sTwo [UIOOp.read 0x1001 0xFFFFFFFF]).results[0]?).getD false) = false ∧
    (step (run (initState sTwo.devices sTwo.mem sTwo.faulty) [UIOOp.read 0x1001 0xFFFFFFFF])
      UIOOp.dispatch).valwords = [] :=
  ⟨by decide,
   read_valid_only_after_dispatch.1 sTwo [UIOOp.read 0x1001 0xFFFFFFFF] (by decide) 0 (by decide),
   (read_valid_only_after_dispatch.2 sTwo.devices sTwo.mem sTwo.faulty
     [UIOOp.read 0x1001 0xFFFFFFFF]).1⟩
